import Mathlib

/-!
The request handler of caddy-exec (`middleware.go`).

A shallow embedding of `isJSONContentType` and `Middleware.ServeHTTP`.

* Go strings are modelled by `String`, byte slices by `List UInt8`.
* The Go standard library function `mime.ParseMediaType`, which
  `isJSONContentType` calls, is modelled in namespace `mime` after the
  standard library source (it is not part of this repository).
* The collaborators of `ServeHTTP` that live outside `middleware.go`
  (the placeholder replacer, `json.Unmarshal`, `runCommand`, the next handler)
  are parameters, collected in `Env`; every theorem about `ServeHTTP` is
  quantified over them.
* Effects are explicit: `ServeHTTP` returns the final response writer, the
  request as left behind, the returned error and the trace of collaborator
  calls.
-/

namespace CaddyExec

/-! ## Go standard library: package `mime` (media type parsing) -/

namespace mime

/-- The function `unicode.IsSpace`: the code points with the Unicode White_Space property. -/
def isSpace (c : Char) : Bool :=
  let n := c.toNat
  (9 ≤ n && n ≤ 13) || n == 0x20 || n == 0x85 || n == 0xA0 || n == 0x1680 ||
  (0x2000 ≤ n && n ≤ 0x200A) || n == 0x2028 || n == 0x2029 || n == 0x202F ||
  n == 0x205F || n == 0x3000

/-- The rune map of `strings.ToLower`, i.e. `unicode.ToLower`, as far as the media type parser can
observe it: ASCII capitals are lowered, and the only two non-ASCII code points whose lower case is
an ASCII letter (U+0130 and U+212A) are mapped to it. Every other non-ASCII code point has a
non-ASCII lower case, which the parser rejects like the code point itself, so it is left in
place. -/
def toLowerRune (c : Char) : Char :=
  if 'A'.toNat ≤ c.toNat ∧ c.toNat ≤ 'Z'.toNat then Char.ofNat (c.toNat + 32)
  else if c.toNat = 0x130 then 'i'
  else if c.toNat = 0x212A then 'k'
  else c

/-- The function `strings.ToLower`. -/
def toLower (s : List Char) : List Char := s.map toLowerRune

/-- The function `strings.TrimLeftFunc(s, unicode.IsSpace)`. -/
def trimLeftSpace (s : List Char) : List Char := s.dropWhile isSpace

/-- The function `strings.TrimSpace`. -/
def trimSpace (s : List Char) : List Char :=
  ((s.dropWhile isSpace).reverse.dropWhile isSpace).reverse

/-- The function `isTSpecial`: the tspecials of RFC 1521 and RFC 2045. -/
def isTSpecial (c : Char) : Bool :=
  ['(', ')', '<', '>', '@', ',', ';', ':', '\\', '"', '/', '[', ']', '?', '='].contains c

/-- The function `isTokenChar`: a token character of RFC 1521 and RFC 2045. -/
def isTokenChar (c : Char) : Bool :=
  decide (0x20 < c.toNat) && decide (c.toNat < 0x7f) && !isTSpecial c

/-- The function `consumeToken`: the longest run of token characters at the front of `v`, and the
rest. -/
def consumeToken (v : List Char) : List Char × List Char := v.span isTokenChar

/-- The quoted-string loop of `consumeValue`, started after the opening quote. `v` is the whole
input (returned untouched on failure), `acc` the buffer, and the last argument what is left to
scan. The flag is set when the character just passed was a backslash in front of a tspecial: Go
then writes that tspecial and steps over it (`i++`). -/
def consumeQuoted (v : List Char) : Bool → List Char → List Char → List Char × List Char
  | _, _, [] => ([], v)
  | true, acc, c :: s => consumeQuoted v false (acc ++ [c]) s
  | false, acc, c :: s =>
    if c = '"' then (acc, s)
    else if c = '\\' ∧ (s.head?.map isTSpecial).getD false = true then
      consumeQuoted v true acc s
    else if c = '\r' ∨ c = '\n' then ([], v)
    else consumeQuoted v false (acc ++ [c]) s

/-- The function `consumeValue`: a token or a quoted string at the front of `v`, and the rest. -/
def consumeValue (v : List Char) : List Char × List Char :=
  match v with
  | [] => ([], [])
  | '"' :: s => consumeQuoted v false [] s
  | _ => consumeToken v

/-- The function `consumeMediaParam`: one `; key=value` parameter at the front of `v`. The key is
empty exactly when no parameter could be read, and then the rest is `v` itself. -/
def consumeMediaParam (v : List Char) : List Char × List Char × List Char :=
  match trimLeftSpace v with
  | ';' :: rest1 =>
    let token := consumeToken (trimLeftSpace rest1)
    let param := toLower token.1
    if param = [] then ([], [], v)
    else match trimLeftSpace token.2 with
      | '=' :: rest3 =>
        let rest4 := trimLeftSpace rest3
        let value := consumeValue rest4
        if value.1 = [] ∧ value.2 = rest4 then ([], [], v)
        else (param, value.1, value.2)
      | _ => ([], [], v)
  | _ => ([], [], v)

/-- The function `checkMediaTypeDisposition`: `none` when `s` is `token` or `token/token`. -/
def checkMediaTypeDisposition (s : List Char) : Option String :=
  let typ := consumeToken s
  if typ.1 = [] then some "mime: no media type"
  else if typ.2 = [] then none
  else match typ.2 with
    | '/' :: rest1 =>
      let subtype := consumeToken rest1
      if subtype.1 = [] then some "mime: expected token after slash"
      else if subtype.2 ≠ [] then some "mime: unexpected content after media subtype"
      else none
    | _ => some "mime: expected slash after first token"

/-- The parameter loop of `ParseMediaType`. `seen` holds the parameters read so far. In Go the
parameters whose key contains a star are kept in a separate map per base name; a key is looked up
only in the map it would be stored in, so one association list keyed by the full key decides the
duplicate test in the same way. The loop consumes input in every round, so `fuel` larger than the
length of `v` is never used up. -/
def parseParams : Nat → List Char → List (List Char × List Char) →
    Except String (List (List Char × List Char))
  | 0, _, _ => .error "mime: out of fuel"
  | fuel + 1, v, seen =>
    if v = [] then .ok seen
    else
      let v1 := trimLeftSpace v
      if v1 = [] then .ok seen
      else
        let param := consumeMediaParam v1
        if param.1 = [] then
          if trimSpace param.2.2 = [';'] then .ok seen
          else .error "mime: invalid media parameter"
        else
          match seen.lookup param.1 with
          | some old =>
            if old ≠ param.2.1 then .error "mime: duplicate parameter name"
            else parseParams fuel param.2.2 (seen ++ [(param.1, param.2.1)])
          | none => parseParams fuel param.2.2 (seen ++ [(param.1, param.2.1)])

/-- The part of the header value before the first semicolon (`strings.Cut(v, ";")`). -/
def cutBase (v : List Char) : List Char := v.takeWhile (fun c => c != ';')

/-- The function `mime.ParseMediaType`, on lists of code points: the lower-cased, trimmed media
type and the parameters as read, or an error. The last step of the Go function, which stitches
RFC 2231 continuations into the parameter map, cannot fail and is left out; the parameters are
returned as read. -/
def parseMediaTypeChars (v : List Char) :
    Except String (List Char × List (List Char × List Char)) :=
  let base := cutBase v
  let mediatype := trimSpace (toLower base)
  match checkMediaTypeDisposition mediatype with
  | some err => .error err
  | none =>
    let v1 := v.drop base.length
    match parseParams (v1.length + 1) v1 [] with
    | .error err => .error err
    | .ok params => .ok (mediatype, params)

/-- The function `mime.ParseMediaType` on strings. -/
def ParseMediaType (v : String) : Except String (String × List (String × String)) :=
  match parseMediaTypeChars v.toList with
  | .error err => .error err
  | .ok (mt, params) => .ok (String.mk mt, params.map (fun p => (String.mk p.1, String.mk p.2)))

end mime

/-! ## `isJSONContentType` -/

/-- The function `isJSONContentType` of `middleware.go`, over the media type parser it calls. -/
def isJSONContentType
    (parseMediaType : String → Except String (String × List (String × String)))
    (value : String) : Bool :=
  if value = "" then false
  else match parseMediaType value with
    | .error _ => false
    | .ok (mediaType, _) => mediaType == "application/json"

/-! ## Data model -/

/-- A Go `error` value, as far as the handler builds it or hands it on. -/
inductive GoError where
  /-- An error of which only the text is known. -/
  | leaf (text : String)
  /-- The error `fmt.Errorf(context + ": %w", cause)`. -/
  | wrapf (context : String) (cause : GoError)
  /-- A `caddyhttp.HandlerError` with the given status code and wrapped error. -/
  | handlerError (StatusCode : Nat) (Err : GoError)
  deriving DecidableEq, Repr

/-- The status code `http.StatusBadRequest`. -/
def StatusBadRequest : Nat := 400

/-- The status code `http.StatusInternalServerError`. -/
def StatusInternalServerError : Nat := 500

/-- The status code `http.StatusOK`, which a response gets when the body is written before any
call of `WriteHeader`. -/
def StatusOK : Nat := 200

/-- The function `caddyhttp.Error(statusCode, err)` for an error `err` that does not wrap a
`HandlerError` already, which is the case at both call sites (a wrapped I/O error text, a wrapped
JSON error). The random `ID` and the `Trace` of the handler error are not modelled. -/
def caddyhttpError (statusCode : Nat) (err : GoError) : GoError :=
  .handlerError statusCode err

/-- The loop of `textproto.CanonicalMIMEHeaderKey`; the flag says whether the next letter is
raised. -/
def canonicalLoop : Bool → List Char → List Char
  | _, [] => []
  | upper, c :: cs =>
    let c1 := if upper then c.toUpper else c.toLower
    c1 :: canonicalLoop (c1 == '-') cs

/-- The function `textproto.CanonicalMIMEHeaderKey` on a key made of header field characters: the
first letter and every letter after a hyphen in upper case, the others in lower case. -/
def canonicalMIMEHeaderKey (key : String) : String :=
  String.mk (canonicalLoop true key.toList)

/-- An `http.Header`: the pairs of canonical key and value, in the order they were added. -/
abbrev Header := List (String × String)

/-- The method `Header.Get`: the first value stored under the key, or the empty string. -/
def Header.Get (h : Header) (key : String) : String :=
  (h.lookup (canonicalMIMEHeaderKey key)).getD ""

/-- The method `Header.Add`: appends a value under the key. -/
def Header.Add (h : Header) (key value : String) : Header :=
  h ++ [(canonicalMIMEHeaderKey key, value)]

/-- The method `Header.Values`: all values stored under the key. -/
def Header.Values (h : Header) (key : String) : List String :=
  (h.filter (fun p => p.1 == canonicalMIMEHeaderKey key)).map Prod.snd

/-- A request body (`io.ReadCloser`): the bytes still to be read, and the error the reader ends
with instead of the end of the stream, if any. -/
structure Body where
  data : List UInt8
  failure : Option String
  deriving DecidableEq, Repr

/-- The function `io.ReadAll`: all bytes up to the end of the stream, or the error of the reader.
The reader is left drained. -/
def Body.ReadAll (b : Body) : Except String (List UInt8) × Body :=
  match b.failure with
  | some err => (.error err, { data := [], failure := some err })
  | none => (.ok b.data, { data := [], failure := none })

/-- The reader `io.NopCloser(bytes.NewReader(body))`. -/
def Body.ofBytes (body : List UInt8) : Body := { data := body, failure := none }

/-- An `*http.Request`, as far as the handler and a next handler look at it. -/
structure Request where
  Method : String
  URL : String
  Header : Header
  /-- The field is `none` for a nil `Body`. -/
  Body : Option Body
  deriving DecidableEq, Repr

/-- What one `Write` call put into the response body. -/
inductive Written where
  /-- The output of `json.Encoder.Encode` for a struct of string fields: the JSON text of the
  object with these members, in this order, and a newline. -/
  | jsonLine (members : List (String × String))
  /-- Any other bytes. -/
  | bytes (data : List UInt8)
  deriving DecidableEq, Repr

/-- An `http.ResponseWriter` as explicit state. -/
structure ResponseWriter where
  /-- The header map the handler edits (`w.Header()`). -/
  header : Header
  /-- The status code of the status line, once written. -/
  status : Option Nat
  /-- The headers sent: the copy of `header` taken when the status line was written. -/
  sentHeader : Header
  /-- The body written so far. -/
  body : List Written
  deriving DecidableEq, Repr

/-- The method `ResponseWriter.WriteHeader`: writes the status line with the headers as they are
now; a second call changes nothing. -/
def ResponseWriter.WriteHeader (w : ResponseWriter) (statusCode : Nat) : ResponseWriter :=
  match w.status with
  | some _ => w
  | none => { w with status := some statusCode, sentHeader := w.header }

/-- The call `w.Header().Add(key, value)`: edits the header map only. -/
def ResponseWriter.HeaderAdd (w : ResponseWriter) (key value : String) : ResponseWriter :=
  { w with header := w.header.Add key value }

/-- The method `ResponseWriter.Write`: writes the status line with `StatusOK` first when none was
written, then appends to the body. -/
def ResponseWriter.Write (w : ResponseWriter) (p : Written) : ResponseWriter :=
  let w1 := w.WriteHeader StatusOK
  { w1 with body := w1.body ++ [p] }

/-- A response writer nothing has been written to. -/
def ResponseWriter.fresh (header : Header) : ResponseWriter :=
  { header := header, status := none, sentHeader := [], body := [] }

/-- The struct `execRequestPayload`; a nil `Stdin` pointer is `none`. -/
structure execRequestPayload where
  Args : List String
  Stdin : Option String
  deriving DecidableEq, Repr

/-- The zero value of `execRequestPayload` (`var payload execRequestPayload`). -/
instance : Inhabited execRequestPayload := ⟨{ Args := [], Stdin := none }⟩

/-- Modelled from the spec: the struct `Cmd`, which `Middleware` embeds, is declared outside
`middleware.go`. Of the configuration the handler reads the ordered static argument strings and
the pass-through flag; the remaining fields are for the command runner and are kept as one
uninterpreted value. -/
structure Cmd where
  Args : List String
  PassThru : Bool
  runnerConfig : String
  deriving DecidableEq, Repr

/-- The struct `Middleware`, which embeds `Cmd`. -/
structure Middleware where
  Cmd : Cmd
  deriving DecidableEq, Repr

/-- The local struct `resp` of `ServeHTTP`; both fields carry the JSON tag `omitempty`. -/
structure Resp where
  Status : String
  Error : String
  deriving DecidableEq, Repr

/-- The members `encoding/json` emits for `resp`: a field tagged `omitempty` is left out when it
is the empty string. -/
def Resp.members (resp : Resp) : List (String × String) :=
  (if resp.Status = "" then [] else [("status", resp.Status)]) ++
  (if resp.Error = "" then [] else [("error", resp.Error)])

/-- The call `json.NewEncoder(w).Encode(resp)`: one `Write` of the JSON line. The writer is kept in
memory and accepts every write, so the returned error is nil. -/
def Encode (w : ResponseWriter) (resp : Resp) : ResponseWriter × Option GoError :=
  (w.Write (.jsonLine resp.members), none)

/-- A call the handler makes to a collaborator, with the arguments passed. -/
inductive Event where
  /-- The call `runCommand(&m.Cmd, argv, stdin)`; `stdin` is `none` for a nil reader and
  `some s` for `strings.NewReader(s)`. -/
  | runCommand (argv : List String) (stdin : Option String)
  /-- The call `m.log.Error(msg)`. -/
  | logError (msg : String)
  /-- The call `next.ServeHTTP(w, r)`. -/
  | nextServeHTTP (w : ResponseWriter) (r : Request)
  deriving DecidableEq, Repr

/-- The collaborators of `ServeHTTP` that are defined outside `middleware.go`. -/
structure Env where
  /-- The method `repl.ReplaceAll(input, empty)` of the replacer in the request context. -/
  ReplaceAll : String → String → String
  /-- The function `mime.ParseMediaType`. -/
  ParseMediaType : String → Except String (String × List (String × String))
  /-- The call `json.Unmarshal(body, &payload)` on a zero payload: the payload, or the text of the
  decode error. -/
  Unmarshal : List UInt8 → Except String execRequestPayload
  /-- The variable `runCommand`: `none` for a nil error, else the text `err.Error()`. -/
  runCommand : Cmd → List String → Option String → Option String
  /-- The next handler: the response writer as it leaves it, and the error it returns. -/
  next : ResponseWriter → Request → ResponseWriter × Option GoError

/-- What a call of `ServeHTTP` leaves behind. -/
structure Outcome where
  /-- The response writer afterwards. -/
  w : ResponseWriter
  /-- The request afterwards. -/
  r : Request
  /-- The calls to collaborators, in order. -/
  events : List Event
  /-- The returned error, `none` for nil. -/
  ret : Option GoError

/-! ## `Middleware.ServeHTTP` -/

/-- Lines 68 to 77: the body is read whole and replaced by a fresh reader over the bytes read.
A nil body is left alone and gives no bytes. On a read error the request keeps the drained
reader. -/
def readRequestBody (r : Request) : Except (String × Request) (List UInt8 × Request) :=
  match r.Body with
  | none => .ok ([], r)
  | some b =>
    match b.ReadAll with
    | (.error err, b1) => .error (err, { r with Body := some b1 })
    | (.ok body, _) => .ok (body, { r with Body := some (Body.ofBytes body) })

/-- Lines 79 to 88: the payload and the input stream. The body is decoded only when it is not
empty and the `Content-Type` header passes `isJSONContentType`; otherwise the payload keeps its
zero value and the input stream stays nil. -/
def decodePayload (env : Env) (body : List UInt8) (r : Request) :
    Except String (execRequestPayload × Option String) :=
  if body.length > 0 ∧ isJSONContentType env.ParseMediaType (r.Header.Get "Content-Type") = true then
    match env.Unmarshal body with
    | .error err => .error err
    | .ok payload =>
      match payload.Stdin with
      | some s => .ok (payload, some s)
      | none => .ok (payload, none)
  else .ok (default, none)

/-- Lines 91 to 97: the argument list, built by the two loops that append to `argv`. -/
def buildArgv (ReplaceAll : String → String → String) (Args payloadArgs : List String) :
    List String :=
  let argv := Args.foldl (fun argv argument => argv ++ [ReplaceAll argument ""]) []
  payloadArgs.foldl (fun argv argument => argv ++ [ReplaceAll argument ""]) argv

/-- Lines 109 to 122: the JSON response. -/
def respondJSON (w : ResponseWriter) (err : Option String) : ResponseWriter × Option GoError :=
  let resp : Resp := { Status := "", Error := "" }
  let (w1, resp) :=
    match err with
    | none => (w, { resp with Status := "success" })
    | some msg => (w.WriteHeader StatusInternalServerError, { resp with Error := msg })
  let w2 := w1.HeaderAdd "content-type" "application/json"
  Encode w2 resp

/-- The method `Middleware.ServeHTTP`. -/
def ServeHTTP (env : Env) (m : Middleware) (w : ResponseWriter) (r : Request) : Outcome :=
  match readRequestBody r with
  | .error (err, r0) =>
    { w := w, r := r0, events := [],
      ret := some (caddyhttpError StatusBadRequest (.wrapf "reading request body" (.leaf err))) }
  | .ok (body, r1) =>
    match decodePayload env body r1 with
    | .error err =>
      { w := w, r := r1, events := [],
        ret := some (caddyhttpError StatusBadRequest (.wrapf "decoding request body" (.leaf err))) }
    | .ok (payload, stdin) =>
      let argv := buildArgv env.ReplaceAll m.Cmd.Args payload.Args
      let err := env.runCommand m.Cmd argv stdin
      let ran := [Event.runCommand argv stdin]
      if m.Cmd.PassThru then
        let logged := match err with
          | some msg => ran ++ [Event.logError msg]
          | none => ran
        let (w1, ret) := env.next w r1
        { w := w1, r := r1, events := logged ++ [Event.nextServeHTTP w r1], ret := ret }
      else
        let (w1, ret) := respondJSON w err
        { w := w1, r := r1, events := ran, ret := ret }

/-- The calls of the command runner in a trace, with their arguments. -/
def runs : List Event → List (List String × Option String)
  | [] => []
  | .runCommand argv stdin :: es => (argv, stdin) :: runs es
  | _ :: es => runs es

/-- The calls of the next handler in a trace, with their arguments. -/
def nexts : List Event → List (ResponseWriter × Request)
  | [] => []
  | .nextServeHTTP w r :: es => (w, r) :: nexts es
  | _ :: es => nexts es

/-- The gate of line 81: the body is not empty and the content type is JSON. -/
def jsonGate (env : Env) (body : List UInt8) (r : Request) : Prop :=
  body.length > 0 ∧ isJSONContentType env.ParseMediaType (r.Header.Get "Content-Type") = true

instance (env : Env) (body : List UInt8) (r : Request) : Decidable (jsonGate env body r) := by
  unfold jsonGate; infer_instance

/-! ## Concrete collaborators for the examples -/

/-- The UTF-8 bytes of a string (`[]byte(s)`). -/
def utf8 (s : String) : List UInt8 := s.toList.flatMap String.utf8EncodeChar

/-- The placeholder used in the examples. -/
def queryName : String := "\x7bhttp.request.uri.query.name\x7d"

/-- A replacer for a request with the query `name=bob`, on the inputs of the examples: the
placeholder `queryName` becomes `bob`, a string without placeholder is returned as it is. -/
def bobReplaceAll (input _empty : String) : String :=
  if input = queryName then "bob" else input

/-- The results of `json.Unmarshal` into a zero `execRequestPayload` on the bodies of the
examples; on any other body the table reports a syntax error. -/
def exampleUnmarshal (body : List UInt8) : Except String execRequestPayload :=
  if body = utf8 "\x7b\"args\":[\"--loud\"]\x7d" then .ok { Args := ["--loud"], Stdin := none }
  else if body = utf8 "\x7b\"args\":[\"x\"],\"stdin\":\"y\"\x7d" then
    .ok { Args := ["x"], Stdin := some "y" }
  else if body = utf8 "\x7b\"args\":[\"\x7bhttp.request.uri.query.name\x7d\"]\x7d" then
    .ok { Args := [queryName], Stdin := none }
  else if body = utf8 "\x7b\"stdin\": \"\"\x7d" then .ok { Args := [], Stdin := some "" }
  else if body = utf8 "\x7b\x7d" then .ok { Args := [], Stdin := none }
  else if body = utf8 "\x7bnot valid json" then
    .error "invalid character \x27n\x27 looking for beginning of object key string"
  else .error "unexpected end of JSON input"

/-- The collaborators of the examples: the replacer for the query `name=bob`, the media type
parser of the standard library, the decode table, a runner with the given result and a next
handler that does nothing and returns the given error. -/
def exampleEnv (runResult : Option String) (nextResult : Option GoError) : Env where
  ReplaceAll := bobReplaceAll
  ParseMediaType := mime.ParseMediaType
  Unmarshal := exampleUnmarshal
  runCommand := fun _ _ _ => runResult
  next := fun w _ => (w, nextResult)

/-- The configuration of the examples: the static arguments `say` and the placeholder. -/
def exampleMiddleware (passThru : Bool) : Middleware :=
  { Cmd := { Args := ["say", queryName], PassThru := passThru, runnerConfig := "echo" } }

/-- A request of the examples with the given content type and body. -/
def exampleRequest (contentType : Option String) (body : String) : Request :=
  { Method := "POST", URL := "/exec?name=bob",
    Header := match contentType with
      | some ct => Header.Add [] "Content-Type" ct
      | none => [],
    Body := some (Body.ofBytes (utf8 body)) }

/-! ## Lemmas about the handler -/

theorem foldl_append_singleton (g : String → String) (l init : List String) :
    l.foldl (fun argv argument => argv ++ [g argument]) init = init ++ l.map g := by
  induction l generalizing init with
  | nil => simp
  | cons a l ih => simp [ih]

theorem buildArgv_eq (f : String → String → String) (Args payloadArgs : List String) :
    buildArgv f Args payloadArgs
      = Args.map (fun a => f a "") ++ payloadArgs.map (fun a => f a "") := by
  unfold buildArgv
  simp only [foldl_append_singleton (fun a => f a ""), List.nil_append]

theorem readRequestBody_ok (r r1 : Request) (body : List UInt8)
    (hread : readRequestBody r = .ok (body, r1)) :
    r1 = r ∧ ((r.Body = none ∧ body = []) ∨ r.Body = some (Body.ofBytes body)) := by
  unfold readRequestBody at hread
  cases hb : r.Body with
  | none =>
    simp only [hb] at hread
    injection hread with h
    injection h with h1 h2
    exact ⟨h2.symm, Or.inl ⟨rfl, h1.symm⟩⟩
  | some b =>
    simp only [hb] at hread
    obtain ⟨data, failure⟩ := b
    cases failure with
    | some err => simp [Body.ReadAll] at hread
    | none =>
      simp only [Body.ReadAll] at hread
      injection hread with h
      injection h with h1 h2
      subst h1
      refine ⟨?_, Or.inr rfl⟩
      rw [← h2]
      cases r
      simp_all [Body.ofBytes]

theorem decodePayload_skip (env : Env) (body : List UInt8) (r : Request)
    (h : ¬ jsonGate env body r) : decodePayload env body r = .ok (default, none) := by
  unfold decodePayload
  unfold jsonGate at h
  rw [if_neg h]

theorem decodePayload_gate (env : Env) (body : List UInt8) (r : Request)
    (h : jsonGate env body r) :
    decodePayload env body r =
      match env.Unmarshal body with
      | .error err => .error err
      | .ok payload => .ok (payload, payload.Stdin) := by
  unfold decodePayload
  unfold jsonGate at h
  rw [if_pos h]
  cases env.Unmarshal body with
  | error e => rfl
  | ok payload => cases hs : payload.Stdin <;> simp [hs]

/-- The handler once the body is read and the payload decoded. -/
theorem ServeHTTP_exec (env : Env) (m : Middleware) (w : ResponseWriter) (r r1 : Request)
    (body : List UInt8) (payload : execRequestPayload) (stdin : Option String)
    (hread : readRequestBody r = .ok (body, r1))
    (hdec : decodePayload env body r1 = .ok (payload, stdin)) :
    ServeHTTP env m w r =
      if m.Cmd.PassThru then
        { w := (env.next w r1).1, r := r1,
          events := [Event.runCommand (buildArgv env.ReplaceAll m.Cmd.Args payload.Args) stdin] ++
            (match env.runCommand m.Cmd (buildArgv env.ReplaceAll m.Cmd.Args payload.Args) stdin with
              | some msg => [Event.logError msg]
              | none => []) ++ [Event.nextServeHTTP w r1],
          ret := (env.next w r1).2 }
      else
        { w := (respondJSON w
            (env.runCommand m.Cmd (buildArgv env.ReplaceAll m.Cmd.Args payload.Args) stdin)).1,
          r := r1,
          events := [Event.runCommand (buildArgv env.ReplaceAll m.Cmd.Args payload.Args) stdin],
          ret := (respondJSON w
            (env.runCommand m.Cmd (buildArgv env.ReplaceAll m.Cmd.Args payload.Args) stdin)).2 } := by
  simp only [ServeHTTP, hread, hdec]
  split
  · cases env.runCommand m.Cmd (buildArgv env.ReplaceAll m.Cmd.Args payload.Args) stdin <;> rfl
  · rfl

theorem ServeHTTP_runs (env : Env) (m : Middleware) (w : ResponseWriter) (r r1 : Request)
    (body : List UInt8) (payload : execRequestPayload) (stdin : Option String)
    (hread : readRequestBody r = .ok (body, r1))
    (hdec : decodePayload env body r1 = .ok (payload, stdin)) :
    runs (ServeHTTP env m w r).events
      = [(buildArgv env.ReplaceAll m.Cmd.Args payload.Args, stdin)] := by
  rw [ServeHTTP_exec env m w r r1 body payload stdin hread hdec]
  split
  · cases env.runCommand m.Cmd (buildArgv env.ReplaceAll m.Cmd.Args payload.Args) stdin <;> rfl
  · rfl

/-! ## The claims -/

/-- C1: when the body is read and the payload decoded (the zero payload when the body is not
decoded), the command runner is called with an argument list of length `len(S) + len(P)` whose
entry `i`, for `i < len(S)`, is the replacer applied to `S[i]` with the empty default. -/
theorem C1_static_arguments_first (env : Env) (m : Middleware) (w : ResponseWriter)
    (r r1 : Request) (body : List UInt8) (payload : execRequestPayload) (stdin : Option String)
    (hread : readRequestBody r = .ok (body, r1))
    (hdec : decodePayload env body r1 = .ok (payload, stdin)) :
    ∃ argv, runs (ServeHTTP env m w r).events = [(argv, stdin)] ∧
      argv.length = m.Cmd.Args.length + payload.Args.length ∧
      (∀ (i : Nat) (h : i < m.Cmd.Args.length),
        argv[i]? = some (env.ReplaceAll m.Cmd.Args[i] "")) ∧
      (¬ jsonGate env body r1 → payload.Args = []) := by
  refine ⟨buildArgv env.ReplaceAll m.Cmd.Args payload.Args,
    ServeHTTP_runs env m w r r1 body payload stdin hread hdec, ?_, ?_, ?_⟩
  · simp [buildArgv_eq]
  · intro i h
    rw [buildArgv_eq, List.getElem?_append_left (by simpa using h)]
    simp [List.getElem?_eq_getElem h]
  · intro hg
    rw [decodePayload_skip env body r1 hg] at hdec
    injection hdec with h
    injection h with h1 _
    rw [← h1]
    rfl

/-- Scenario B of the spec as an instance of C1: static arguments `say` and the placeholder,
body with the extra argument `--loud`. -/
theorem C1_static_arguments_first_witness :
    ∃ argv, runs (ServeHTTP (exampleEnv none none) (exampleMiddleware false)
        (ResponseWriter.fresh [])
        (exampleRequest (some "application/json") "\x7b\"args\":[\"--loud\"]\x7d")).events
          = [(argv, none)] ∧
      argv.length = (exampleMiddleware false).Cmd.Args.length + ["--loud"].length ∧
      (∀ (i : Nat) (h : i < (exampleMiddleware false).Cmd.Args.length),
        argv[i]? = some (bobReplaceAll (exampleMiddleware false).Cmd.Args[i] "")) ∧
      (¬ jsonGate (exampleEnv none none) (utf8 "\x7b\"args\":[\"--loud\"]\x7d")
          (exampleRequest (some "application/json") "\x7b\"args\":[\"--loud\"]\x7d") →
        ["--loud"] = []) :=
  C1_static_arguments_first (exampleEnv none none) (exampleMiddleware false)
    (ResponseWriter.fresh [])
    (exampleRequest (some "application/json") "\x7b\"args\":[\"--loud\"]\x7d")
    (exampleRequest (some "application/json") "\x7b\"args\":[\"--loud\"]\x7d")
    (utf8 "\x7b\"args\":[\"--loud\"]\x7d") { Args := ["--loud"], Stdin := none } none
    (by rfl) (by rfl)

/-- C2, the code at the failing input: with the static argument `say` and the JSON body
`{"args":["{http.request.uri.query.name}"]}` on a request with the query `name=bob`, the payload
argument decodes to the placeholder text, and the command runner is called with `say`, `bob`: the
payload argument went through the replacer and did not arrive verbatim. -/
theorem C2_payload_argument_is_resolved :
    exampleUnmarshal (utf8 "\x7b\"args\":[\"\x7bhttp.request.uri.query.name\x7d\"]\x7d")
      = .ok { Args := ["\x7bhttp.request.uri.query.name\x7d"], Stdin := none } ∧
    runs (ServeHTTP (exampleEnv none none)
        { Cmd := { Args := ["say"], PassThru := false, runnerConfig := "echo" } }
        (ResponseWriter.fresh [])
        (exampleRequest (some "application/json")
          "\x7b\"args\":[\"\x7bhttp.request.uri.query.name\x7d\"]\x7d")).events
      = [(["say", "bob"], none)] ∧
    ["say", "bob"] ≠ ["say", "\x7bhttp.request.uri.query.name\x7d"] := by
  refine ⟨by rfl, by rfl, by decide⟩

/-- C4: when the body is not empty, the content type passes `isJSONContentType` and the decode
fails, `ServeHTTP` returns the handler error with status 400 around the wrapped decode error,
calls neither the command runner nor the next handler nor the logger, and leaves the response
writer as it was, whatever the pass-through flag. -/
theorem C4_decode_failure_is_bad_request (env : Env) (m : Middleware) (w : ResponseWriter)
    (r r1 : Request) (body : List UInt8) (decodeErr : String)
    (hread : readRequestBody r = .ok (body, r1))
    (hbody : body ≠ [])
    (hct : isJSONContentType env.ParseMediaType (r.Header.Get "Content-Type") = true)
    (hdec : env.Unmarshal body = .error decodeErr) :
    (ServeHTTP env m w r).ret
      = some (.handlerError 400 (.wrapf "decoding request body" (.leaf decodeErr))) ∧
    (ServeHTTP env m w r).events = [] ∧
    runs (ServeHTTP env m w r).events = [] ∧
    nexts (ServeHTTP env m w r).events = [] ∧
    (ServeHTTP env m w r).w = w := by
  have hr1 : r1 = r := (readRequestBody_ok r r1 body hread).1
  have hg : jsonGate env body r1 := by
    rw [hr1]
    exact ⟨List.length_pos.mpr hbody, hct⟩
  have hd : decodePayload env body r1 = .error decodeErr := by
    rw [decodePayload_gate env body r1 hg, hdec]
  simp [ServeHTTP, hread, hd, runs, nexts, caddyhttpError, StatusBadRequest]

/-- Scenario E of the spec as an instance of C4, in pass-through mode. -/
theorem C4_decode_failure_is_bad_request_witness :
    (ServeHTTP (exampleEnv none none) (exampleMiddleware true) (ResponseWriter.fresh [])
        (exampleRequest (some "application/json") "\x7bnot valid json")).ret
      = some (.handlerError 400 (.wrapf "decoding request body"
          (.leaf "invalid character \x27n\x27 looking for beginning of object key string"))) ∧
    (ServeHTTP (exampleEnv none none) (exampleMiddleware true) (ResponseWriter.fresh [])
        (exampleRequest (some "application/json") "\x7bnot valid json")).events = [] ∧
    runs (ServeHTTP (exampleEnv none none) (exampleMiddleware true) (ResponseWriter.fresh [])
        (exampleRequest (some "application/json") "\x7bnot valid json")).events = [] ∧
    nexts (ServeHTTP (exampleEnv none none) (exampleMiddleware true) (ResponseWriter.fresh [])
        (exampleRequest (some "application/json") "\x7bnot valid json")).events = [] ∧
    (ServeHTTP (exampleEnv none none) (exampleMiddleware true) (ResponseWriter.fresh [])
        (exampleRequest (some "application/json") "\x7bnot valid json")).w
      = ResponseWriter.fresh [] :=
  C4_decode_failure_is_bad_request (exampleEnv none none) (exampleMiddleware true)
    (ResponseWriter.fresh []) (exampleRequest (some "application/json") "\x7bnot valid json")
    (exampleRequest (some "application/json") "\x7bnot valid json")
    (utf8 "\x7bnot valid json")
    "invalid character \x27n\x27 looking for beginning of object key string"
    (by rfl) (by decide) (by decide) (by rfl)

/-- C5: when the body read is empty, or the content type does not pass `isJSONContentType` (a
missing header reads as the empty string), the body is not decoded, whatever the decoder would
make of it: the payload is the zero value, the command runner is called with exactly the resolved
static arguments and a nil input stream, and no decode error is returned (nil in JSON mode, the
result of the next handler in pass-through mode). -/
theorem C5_body_not_decoded (env : Env) (m : Middleware) (w : ResponseWriter)
    (r r1 : Request) (body : List UInt8)
    (hread : readRequestBody r = .ok (body, r1))
    (hskip : body = [] ∨
      isJSONContentType env.ParseMediaType (r.Header.Get "Content-Type") = false) :
    decodePayload env body r1 = .ok (default, none) ∧
    runs (ServeHTTP env m w r).events
      = [(m.Cmd.Args.map (fun a => env.ReplaceAll a ""), none)] ∧
    (ServeHTTP env m w r).ret = if m.Cmd.PassThru then (env.next w r1).2 else none := by
  have hr1 : r1 = r := (readRequestBody_ok r r1 body hread).1
  have hg : ¬ jsonGate env body r1 := by
    rw [hr1]
    rintro ⟨h1, h2⟩
    rcases hskip with h | h
    · simp [h] at h1
    · rw [h] at h2
      exact Bool.false_ne_true h2
  have hd := decodePayload_skip env body r1 hg
  refine ⟨hd, ?_, ?_⟩
  · rw [ServeHTTP_runs env m w r r1 body default none hread hd, buildArgv_eq]
    simp [default]
  · rw [ServeHTTP_exec env m w r r1 body default none hread hd]
    split <;> rfl

/-- An instance of C5: a body that is valid JSON for the payload shape, sent as `text/plain`. -/
theorem C5_body_not_decoded_witness :
    decodePayload (exampleEnv none none) (utf8 "\x7b\"args\":[\"x\"],\"stdin\":\"y\"\x7d")
        (exampleRequest (some "text/plain") "\x7b\"args\":[\"x\"],\"stdin\":\"y\"\x7d")
      = .ok (default, none) ∧
    runs (ServeHTTP (exampleEnv none none) (exampleMiddleware false) (ResponseWriter.fresh [])
        (exampleRequest (some "text/plain") "\x7b\"args\":[\"x\"],\"stdin\":\"y\"\x7d")).events
      = [((exampleMiddleware false).Cmd.Args.map (fun a => bobReplaceAll a ""), none)] ∧
    (ServeHTTP (exampleEnv none none) (exampleMiddleware false) (ResponseWriter.fresh [])
        (exampleRequest (some "text/plain") "\x7b\"args\":[\"x\"],\"stdin\":\"y\"\x7d")).ret
      = if (exampleMiddleware false).Cmd.PassThru then
          ((exampleEnv none none).next (ResponseWriter.fresh [])
            (exampleRequest (some "text/plain") "\x7b\"args\":[\"x\"],\"stdin\":\"y\"\x7d")).2
        else none :=
  C5_body_not_decoded (exampleEnv none none) (exampleMiddleware false) (ResponseWriter.fresh [])
    (exampleRequest (some "text/plain") "\x7b\"args\":[\"x\"],\"stdin\":\"y\"\x7d")
    (exampleRequest (some "text/plain") "\x7b\"args\":[\"x\"],\"stdin\":\"y\"\x7d")
    (utf8 "\x7b\"args\":[\"x\"],\"stdin\":\"y\"\x7d")
    (by rfl) (Or.inr (by decide))

/-- C6: in pass-through mode, when the body is read and the payload decoded, whatever the command
runner returns: the next handler is called exactly once, with the response writer untouched and
with the request as it arrived (same method, URL and headers, and a body reader over the bytes
that were read); the response writer is left as the next handler leaves it; and `ServeHTTP`
returns what the next handler returned. -/
theorem C6_pass_through_delegates (env : Env) (m : Middleware) (w : ResponseWriter)
    (r r1 : Request) (body : List UInt8) (payload : execRequestPayload) (stdin : Option String)
    (hpass : m.Cmd.PassThru = true)
    (hread : readRequestBody r = .ok (body, r1))
    (hdec : decodePayload env body r1 = .ok (payload, stdin)) :
    nexts (ServeHTTP env m w r).events = [(w, r1)] ∧
    r1.Header = r.Header ∧ r1.Method = r.Method ∧ r1.URL = r.URL ∧
    (∀ b, r.Body = some b → b.ReadAll.1 = .ok body ∧ r1.Body = some (Body.ofBytes body) ∧
      (Body.ofBytes body).ReadAll.1 = .ok body) ∧
    (r.Body = none → r1.Body = none) ∧
    (ServeHTTP env m w r).w = (env.next w r1).1 ∧
    (ServeHTTP env m w r).ret = (env.next w r1).2 := by
  obtain ⟨hr1, hb⟩ := readRequestBody_ok r r1 body hread
  have hout := ServeHTTP_exec env m w r r1 body payload stdin hread hdec
  rw [if_pos hpass] at hout
  refine ⟨?_, by rw [hr1], by rw [hr1], by rw [hr1], ?_, ?_, by rw [hout], by rw [hout]⟩
  · rw [hout]
    cases env.runCommand m.Cmd (buildArgv env.ReplaceAll m.Cmd.Args payload.Args) stdin <;> rfl
  · intro b hbody
    rcases hb with ⟨hnone, _⟩ | hsome
    · rw [hnone] at hbody
      exact Option.noConfusion hbody
    · rw [hsome] at hbody
      injection hbody with hbody
      subst hbody
      exact ⟨rfl, by rw [hr1, hsome], rfl⟩
  · intro hnone
    rw [hr1, hnone]

/-- Scenario D of the spec as an instance of C6: the runner fails, the next handler returns an
error of its own. -/
theorem C6_pass_through_delegates_witness :
    nexts (ServeHTTP (exampleEnv (some "exit code 1") (some (.leaf "downstream")))
        (exampleMiddleware true) (ResponseWriter.fresh [])
        (exampleRequest (some "application/json") "\x7b\"args\":[\"--loud\"]\x7d")).events
      = [(ResponseWriter.fresh [],
          exampleRequest (some "application/json") "\x7b\"args\":[\"--loud\"]\x7d")] ∧
    (ServeHTTP (exampleEnv (some "exit code 1") (some (.leaf "downstream")))
        (exampleMiddleware true) (ResponseWriter.fresh [])
        (exampleRequest (some "application/json") "\x7b\"args\":[\"--loud\"]\x7d")).ret
      = some (.leaf "downstream") :=
  have h := C6_pass_through_delegates
    (exampleEnv (some "exit code 1") (some (.leaf "downstream")))
    (exampleMiddleware true) (ResponseWriter.fresh [])
    (exampleRequest (some "application/json") "\x7b\"args\":[\"--loud\"]\x7d")
    (exampleRequest (some "application/json") "\x7b\"args\":[\"--loud\"]\x7d")
    (utf8 "\x7b\"args\":[\"--loud\"]\x7d") { Args := ["--loud"], Stdin := none } none
    (by rfl) (by rfl) (by rfl)
  ⟨h.1, h.2.2.2.2.2.2.2⟩

/-- C7: when the body is decoded, the command runner receives the input stream of the payload:
a reader over exactly `s` when the `stdin` field holds the string `s`, the empty string included,
and nil when the field is absent. -/
theorem C7_stdin_presence (env : Env) (m : Middleware) (w : ResponseWriter)
    (r r1 : Request) (body : List UInt8) (payload : execRequestPayload)
    (hread : readRequestBody r = .ok (body, r1))
    (hgate : jsonGate env body r1)
    (hdec : env.Unmarshal body = .ok payload) :
    ∃ argv, runs (ServeHTTP env m w r).events = [(argv, payload.Stdin)] ∧
      (∀ s, payload.Stdin = some s →
        runs (ServeHTTP env m w r).events = [(argv, some s)] ∧
        runs (ServeHTTP env m w r).events ≠ [(argv, none)]) ∧
      (payload.Stdin = none → runs (ServeHTTP env m w r).events = [(argv, none)]) := by
  have hd : decodePayload env body r1 = .ok (payload, payload.Stdin) := by
    rw [decodePayload_gate env body r1 hgate, hdec]
  have hruns := ServeHTTP_runs env m w r r1 body payload payload.Stdin hread hd
  refine ⟨_, hruns, ?_, ?_⟩
  · intro s hs
    rw [hruns, hs]
    simp
  · intro hs
    rw [hruns, hs]

/-- An instance of C7: the body `{"stdin": ""}` gives the runner a present, empty input
stream. -/
theorem C7_stdin_presence_witness :
    ∃ argv, runs (ServeHTTP (exampleEnv none none) (exampleMiddleware false)
        (ResponseWriter.fresh [])
        (exampleRequest (some "application/json") "\x7b\"stdin\": \"\"\x7d")).events
          = [(argv, some "")] ∧
      runs (ServeHTTP (exampleEnv none none) (exampleMiddleware false)
        (ResponseWriter.fresh [])
        (exampleRequest (some "application/json") "\x7b\"stdin\": \"\"\x7d")).events
          ≠ [(argv, none)] :=
  have ⟨argv, _, h, _⟩ := C7_stdin_presence (exampleEnv none none) (exampleMiddleware false)
    (ResponseWriter.fresh [])
    (exampleRequest (some "application/json") "\x7b\"stdin\": \"\"\x7d")
    (exampleRequest (some "application/json") "\x7b\"stdin\": \"\"\x7d")
    (utf8 "\x7b\"stdin\": \"\"\x7d") { Args := [], Stdin := some "" }
    (by rfl) (by decide) (by rfl)
  ⟨argv, h "" rfl⟩

/-- C10: the command runner is called at most once per request; it is called exactly once when
the body is read and, where the gate of line 81 passes, decoded, in either mode and whatever the
runner returns; and it is not called when the body cannot be read, or when the gate passes and
the decode fails. -/
theorem C10_runner_called_at_most_once (env : Env) (m : Middleware) (w : ResponseWriter)
    (r : Request) :
    (runs (ServeHTTP env m w r).events).length ≤ 1 ∧
    ((runs (ServeHTTP env m w r).events).length = 1 ↔
      ∃ body r1, readRequestBody r = .ok (body, r1) ∧
        (jsonGate env body r1 → ∃ payload, env.Unmarshal body = .ok payload)) ∧
    ((runs (ServeHTTP env m w r).events).length = 0 ↔
      (∃ e, readRequestBody r = .error e) ∨
      ∃ body r1 err, readRequestBody r = .ok (body, r1) ∧ jsonGate env body r1 ∧
        env.Unmarshal body = .error err) := by
  cases hread : readRequestBody r with
  | error e =>
    have h0 : runs (ServeHTTP env m w r).events = [] := by
      obtain ⟨err, r0⟩ := e
      simp [ServeHTTP, hread, runs]
    rw [h0]
    simp
  | ok p =>
    obtain ⟨body, r1⟩ := p
    by_cases hg : jsonGate env body r1
    · cases hu : env.Unmarshal body with
      | error err =>
        have hd : decodePayload env body r1 = .error err := by
          rw [decodePayload_gate env body r1 hg, hu]
        have h0 : runs (ServeHTTP env m w r).events = [] := by
          simp [ServeHTTP, hread, hd, runs]
        rw [h0]
        refine ⟨by simp, ?_, ?_⟩
        · constructor
          · intro h
            simp at h
          · rintro ⟨body2, r2, h1, h2⟩
            injection h1 with h1
            injection h1 with hb hr
            subst hb
            subst hr
            obtain ⟨payload, hp⟩ := h2 hg
            rw [hu] at hp
            exact Except.noConfusion hp
        · constructor
          · intro _
            exact Or.inr ⟨body, r1, err, rfl, hg, hu⟩
          · intro _
            rfl
      | ok payload =>
        have hd : decodePayload env body r1 = .ok (payload, payload.Stdin) := by
          rw [decodePayload_gate env body r1 hg, hu]
        rw [ServeHTTP_runs env m w r r1 body payload payload.Stdin hread hd]
        refine ⟨by simp, ?_, ?_⟩
        · constructor
          · intro _
            exact ⟨body, r1, rfl, fun _ => ⟨payload, hu⟩⟩
          · intro _
            rfl
        · constructor
          · intro h
            simp at h
          · rintro (⟨e, he⟩ | ⟨body2, r2, err, h1, _, h3⟩)
            · exact Except.noConfusion he
            · injection h1 with h1
              injection h1 with hb hr
              subst hb
              rw [hu] at h3
              exact Except.noConfusion h3
    · have hd := decodePayload_skip env body r1 hg
      rw [ServeHTTP_runs env m w r r1 body default none hread hd]
      refine ⟨by simp, ?_, ?_⟩
      · constructor
        · intro _
          exact ⟨body, r1, rfl, fun h => absurd h hg⟩
        · intro _
          rfl
      · constructor
        · intro h
          simp at h
        · rintro (⟨e, he⟩ | ⟨body2, r2, err, h1, h2, _⟩)
          · exact Except.noConfusion he
          · injection h1 with h1
            injection h1 with hb hr
            subst hb
            subst hr
            exact absurd h2 hg

/-- C3 as amended: in JSON mode, on a response writer nothing was written to, when the body is
read and the payload decoded: if the runner succeeds the status is 200 and the body is the JSON
object with the single member `status` = `success`; if the runner fails with a non-empty error
text `msg` the status is 500 and the body is the JSON object with the single member `error` =
`msg`; and in every case the members `status` and `error` are not both present. -/
theorem C3_json_mode_response (env : Env) (m : Middleware) (w : ResponseWriter)
    (r r1 : Request) (body : List UInt8) (payload : execRequestPayload) (stdin : Option String)
    (hjson : m.Cmd.PassThru = false)
    (hfresh : w.status = none ∧ w.body = [])
    (hread : readRequestBody r = .ok (body, r1))
    (hdec : decodePayload env body r1 = .ok (payload, stdin)) :
    (env.runCommand m.Cmd (buildArgv env.ReplaceAll m.Cmd.Args payload.Args) stdin = none →
      (ServeHTTP env m w r).w.status = some 200 ∧
      (ServeHTTP env m w r).w.body = [.jsonLine [("status", "success")]] ∧
      (ServeHTTP env m w r).ret = none) ∧
    (∀ msg, env.runCommand m.Cmd (buildArgv env.ReplaceAll m.Cmd.Args payload.Args) stdin
        = some msg → msg ≠ "" →
      (ServeHTTP env m w r).w.status = some 500 ∧
      (ServeHTTP env m w r).w.body = [.jsonLine [("error", msg)]]) ∧
    (∃ members, (ServeHTTP env m w r).w.body = [.jsonLine members] ∧
      ¬ ("status" ∈ members.map Prod.fst ∧ "error" ∈ members.map Prod.fst)) := by
  obtain ⟨hstatus, hbody⟩ := hfresh
  have hout := ServeHTTP_exec env m w r r1 body payload stdin hread hdec
  rw [hjson] at hout
  simp only [Bool.false_eq_true, if_false] at hout
  rw [hout]
  refine ⟨?_, ?_, ?_⟩
  · intro hrun
    rw [hrun]
    simp [respondJSON, Encode, ResponseWriter.Write, ResponseWriter.WriteHeader,
      ResponseWriter.HeaderAdd, Resp.members, hstatus, hbody, StatusOK]
  · intro msg hrun hmsg
    rw [hrun]
    simp [respondJSON, Encode, ResponseWriter.Write, ResponseWriter.WriteHeader,
      ResponseWriter.HeaderAdd, Resp.members, hstatus, hbody, StatusInternalServerError, hmsg]
  · cases hrun : env.runCommand m.Cmd (buildArgv env.ReplaceAll m.Cmd.Args payload.Args) stdin with
    | none =>
      refine ⟨[("status", "success")], ?_, by decide⟩
      simp [respondJSON, Encode, ResponseWriter.Write, ResponseWriter.WriteHeader,
        ResponseWriter.HeaderAdd, Resp.members, hstatus, hbody]
    | some msg =>
      by_cases hmsg : msg = ""
      · refine ⟨[], ?_, by simp⟩
        simp [respondJSON, Encode, ResponseWriter.Write, ResponseWriter.WriteHeader,
          ResponseWriter.HeaderAdd, Resp.members, hstatus, hbody, hmsg]
      · refine ⟨[("error", msg)], ?_, by simp⟩
        simp [respondJSON, Encode, ResponseWriter.Write, ResponseWriter.WriteHeader,
          ResponseWriter.HeaderAdd, Resp.members, hstatus, hbody, hmsg]

/-- Scenario C of the spec as an instance of C3: the runner fails with `exit code 1`. -/
theorem C3_json_mode_response_witness :
    (ServeHTTP (exampleEnv (some "exit code 1") none) (exampleMiddleware false)
        (ResponseWriter.fresh [])
        (exampleRequest (some "application/json") "\x7b\"args\":[\"--loud\"]\x7d")).w.status
      = some 500 ∧
    (ServeHTTP (exampleEnv (some "exit code 1") none) (exampleMiddleware false)
        (ResponseWriter.fresh [])
        (exampleRequest (some "application/json") "\x7b\"args\":[\"--loud\"]\x7d")).w.body
      = [.jsonLine [("error", "exit code 1")]] :=
  (C3_json_mode_response (exampleEnv (some "exit code 1") none) (exampleMiddleware false)
    (ResponseWriter.fresh [])
    (exampleRequest (some "application/json") "\x7b\"args\":[\"--loud\"]\x7d")
    (exampleRequest (some "application/json") "\x7b\"args\":[\"--loud\"]\x7d")
    (utf8 "\x7b\"args\":[\"--loud\"]\x7d") { Args := ["--loud"], Stdin := none } none
    (by rfl) ⟨by rfl, by rfl⟩ (by rfl) (by rfl)).2.1 "exit code 1" (by rfl) (by decide)

/-- C3 as stated fails for the empty error text: when the runner fails with an error whose text
is empty, the status is 500 and the body is the empty JSON object, not the object with the
member `error`. -/
theorem C3_empty_error_text_counterexample :
    (exampleEnv (some "") none).runCommand (exampleMiddleware false).Cmd ["say", "bob"] none
      = some "" ∧
    (ServeHTTP (exampleEnv (some "") none) (exampleMiddleware false) (ResponseWriter.fresh [])
        (exampleRequest none "")).w.status = some 500 ∧
    (ServeHTTP (exampleEnv (some "") none) (exampleMiddleware false) (ResponseWriter.fresh [])
        (exampleRequest none "")).w.body = [.jsonLine []] ∧
    (ServeHTTP (exampleEnv (some "") none) (exampleMiddleware false) (ResponseWriter.fresh [])
        (exampleRequest none "")).w.body ≠ [.jsonLine [("error", "")]] := by
  refine ⟨by rfl, by rfl, by rfl, by decide⟩

/-- C8, the code at the failing input: in JSON mode with a failing runner (scenario C of the
spec) the status line is written with status 500 while the header map has no `content-type`
entry, so none is sent; the entry is added to the header map only afterwards. With a succeeding
runner on the same request the entry is sent. -/
theorem C8_content_type_missing_on_failure :
    (ServeHTTP (exampleEnv (some "exit code 1") none) (exampleMiddleware false)
        (ResponseWriter.fresh []) (exampleRequest none "")).w.status = some 500 ∧
    Header.Values (ServeHTTP (exampleEnv (some "exit code 1") none) (exampleMiddleware false)
        (ResponseWriter.fresh []) (exampleRequest none "")).w.sentHeader "content-type" = [] ∧
    Header.Values (ServeHTTP (exampleEnv (some "exit code 1") none) (exampleMiddleware false)
        (ResponseWriter.fresh []) (exampleRequest none "")).w.header "content-type"
      = ["application/json"] ∧
    (ServeHTTP (exampleEnv none none) (exampleMiddleware false)
        (ResponseWriter.fresh []) (exampleRequest none "")).w.status = some 200 ∧
    Header.Values (ServeHTTP (exampleEnv none none) (exampleMiddleware false)
        (ResponseWriter.fresh []) (exampleRequest none "")).w.sentHeader "content-type"
      = ["application/json"] := by
  refine ⟨by rfl, by rfl, by rfl, by rfl, by rfl⟩

/-! ## The media type parser -/

theorem trimLeftSpace_length_le (v : List Char) : (mime.trimLeftSpace v).length ≤ v.length :=
  (List.dropWhile_suffix mime.isSpace).length_le

theorem consumeToken_length_le (v : List Char) : (mime.consumeToken v).2.length ≤ v.length := by
  unfold mime.consumeToken
  rw [List.span_eq_take_drop]
  exact (List.dropWhile_suffix mime.isTokenChar).length_le

theorem consumeQuoted_length_le (v : List Char) (esc : Bool) (acc s : List Char) :
    (mime.consumeQuoted v esc acc s).2 = v ∨ (mime.consumeQuoted v esc acc s).2.length ≤ s.length := by
  induction s generalizing esc acc with
  | nil => left; cases esc <;> rfl
  | cons c s ih =>
    cases esc with
    | true =>
      simp only [mime.consumeQuoted]
      rcases ih false (acc ++ [c]) with h | h
      · exact Or.inl h
      · exact Or.inr (Nat.le_succ_of_le h)
    | false =>
      simp only [mime.consumeQuoted]
      split
      · right; simp
      · split
        · rcases ih true acc with h | h
          · exact Or.inl h
          · exact Or.inr (Nat.le_succ_of_le h)
        · split
          · left; rfl
          · rcases ih false (acc ++ [c]) with h | h
            · exact Or.inl h
            · exact Or.inr (Nat.le_succ_of_le h)

theorem consumeValue_length_le (v : List Char) : (mime.consumeValue v).2.length ≤ v.length := by
  unfold mime.consumeValue
  split
  · simp
  · rename_i s
    rcases consumeQuoted_length_le ('"' :: s) false [] s with h | h
    · rw [h]
    · exact Nat.le_succ_of_le h
  · exact consumeToken_length_le v

/-- A parameter that was read took at least its semicolon off the input. -/
theorem consumeMediaParam_length_lt (v : List Char) (h : (mime.consumeMediaParam v).1 ≠ []) :
    (mime.consumeMediaParam v).2.2.length < v.length := by
  unfold mime.consumeMediaParam at h ⊢
  split
  · rename_i rest1 htrim
    rw [htrim] at h
    have h1 := trimLeftSpace_length_le v
    rw [htrim] at h1
    have h2 := trimLeftSpace_length_le rest1
    have h3 := consumeToken_length_le (mime.trimLeftSpace rest1)
    simp only at h ⊢
    split
    · rename_i hp
      rw [if_pos hp] at h
      exact absurd rfl h
    · rename_i hp
      rw [if_neg hp] at h
      split
      · rename_i rest3 htrim2
        rw [htrim2] at h
        have h4 := trimLeftSpace_length_le (mime.consumeToken (mime.trimLeftSpace rest1)).2
        rw [htrim2] at h4
        have h5 := trimLeftSpace_length_le rest3
        have h6 := consumeValue_length_le (mime.trimLeftSpace rest3)
        simp only at h ⊢
        split
        · rename_i hv
          rw [if_pos hv] at h
          exact absurd rfl h
        · simp only [List.length_cons] at h1 h4
          show (mime.consumeValue (mime.trimLeftSpace rest3)).2.length < v.length
          omega
      · rename_i hne
        split at h
        · rename_i rest3 htrim2
          exact absurd htrim2 (hne rest3)
        · exact absurd rfl h
  · rename_i hne
    split at h
    · rename_i rest1 htrim
      exact absurd htrim (hne rest1)
    · exact absurd rfl h

/-- The parameter loop never uses up a fuel larger than the length of its input. -/
theorem parseParams_fuel_suffices (fuel : Nat) (v : List Char)
    (seen : List (List Char × List Char)) (h : v.length < fuel) :
    mime.parseParams fuel v seen ≠ .error "mime: out of fuel" := by
  induction fuel generalizing v seen with
  | zero => exact absurd h (Nat.not_lt_zero _)
  | succ fuel ih =>
    unfold mime.parseParams
    split
    · intro hc; exact Except.noConfusion hc
    · simp only
      split
      · intro hc; exact Except.noConfusion hc
      · have hlen := trimLeftSpace_length_le v
        split
        · split
          · intro hc; exact Except.noConfusion hc
          · intro hc
            injection hc with hc
            exact absurd hc (by decide)
        · rename_i hkey
          have hlt := consumeMediaParam_length_lt (mime.trimLeftSpace v) hkey
          have hfuel : (mime.consumeMediaParam (mime.trimLeftSpace v)).2.2.length < fuel := by
            omega
          split
          · split
            · intro hc
              injection hc with hc
              exact absurd hc (by decide)
            · exact ih _ _ hfuel
          · exact ih _ _ hfuel

/-- The media type parser never reports the fuel error. -/
theorem parseMediaTypeChars_total (v : List Char) :
    mime.parseMediaTypeChars v ≠ .error "mime: out of fuel" := by
  unfold mime.parseMediaTypeChars
  simp only
  split
  · rename_i err hcheck
    intro hc
    injection hc with hc
    subst hc
    revert hcheck
    unfold mime.checkMediaTypeDisposition
    simp only
    repeat' split
    all_goals first
      | (intro hcheck; exact Option.noConfusion hcheck)
      | (intro hcheck; injection hcheck with hcheck; exact absurd hcheck (by decide))
  · split
    · rename_i err hp
      intro hc
      injection hc with hc
      subst hc
      exact parseParams_fuel_suffices _ _ _ (Nat.lt_succ_self _) hp
    · intro hc; exact Except.noConfusion hc

/-- A successful parse returns the lower-cased, trimmed part before the first semicolon. -/
theorem ParseMediaType_mediatype (v mt : String) (ps : List (String × String))
    (h : mime.ParseMediaType v = .ok (mt, ps)) :
    mt = String.mk (mime.trimSpace (mime.toLower (mime.cutBase v.toList))) := by
  unfold mime.ParseMediaType at h
  split at h
  · exact Except.noConfusion h
  · rename_i mt1 params hparse
    injection h with h
    injection h with h1 _
    rw [← h1]
    unfold mime.parseMediaTypeChars at hparse
    simp only at hparse
    split at hparse
    · exact Except.noConfusion hparse
    · split at hparse
      · exact Except.noConfusion hparse
      · injection hparse with hparse
        injection hparse with h2 _
        rw [← h2]

/-- C9: `isJSONContentType` is true exactly when the value is not empty and parses as a media
type that is `application/json`; with the media type parser of the standard library that is:
exactly when the value parses and the part before the first semicolon, lower-cased and trimmed,
is `application/json` (the parameters play no part beyond having to parse). It is true for
`application/json`, with a charset parameter and in capitals, and false for the empty string,
for values that do not parse and for `text/plain`, `application/*`, `application/ld+json` and
`application/jsonx`. -/
theorem C9_isJSONContentType_exact :
    (∀ (parse : String → Except String (String × List (String × String))) (v : String),
      isJSONContentType parse v = true ↔
        v ≠ "" ∧ ∃ params, parse v = .ok ("application/json", params)) ∧
    (∀ v : String, isJSONContentType mime.ParseMediaType v = true ↔
      (∃ mt params, mime.ParseMediaType v = .ok (mt, params)) ∧
      mime.trimSpace (mime.toLower (mime.cutBase v.toList)) = "application/json".toList) ∧
    isJSONContentType mime.ParseMediaType "application/json" = true ∧
    isJSONContentType mime.ParseMediaType "application/json; charset=utf-8" = true ∧
    isJSONContentType mime.ParseMediaType "Application/JSON" = true ∧
    isJSONContentType mime.ParseMediaType "" = false ∧
    isJSONContentType mime.ParseMediaType "application/json/extra" = false ∧
    isJSONContentType mime.ParseMediaType "application/json; charset" = false ∧
    isJSONContentType mime.ParseMediaType "text/plain" = false ∧
    isJSONContentType mime.ParseMediaType "application/*" = false ∧
    isJSONContentType mime.ParseMediaType "application/ld+json" = false ∧
    isJSONContentType mime.ParseMediaType "application/jsonx" = false := by
  have general : ∀ (parse : String → Except String (String × List (String × String)))
      (v : String), isJSONContentType parse v = true ↔
        v ≠ "" ∧ ∃ params, parse v = .ok ("application/json", params) := by
    intro parse v
    unfold isJSONContentType
    by_cases hv : v = ""
    · simp [hv]
    · rw [if_neg hv]
      cases hp : parse v with
      | error e => simp [hv]
      | ok res =>
        obtain ⟨mt, ps⟩ := res
        simp only [beq_iff_eq, ne_eq, hv, not_false_eq_true, true_and]
        constructor
        · intro h
          exact ⟨ps, by rw [h]⟩
        · rintro ⟨params, h⟩
          injection h with h
          injection h with h1 _
  refine ⟨general, ?_, by decide, by decide, by decide, by decide, by decide, by decide,
    by decide, by decide, by decide, by decide⟩
  intro v
  rw [general]
  constructor
  · rintro ⟨_, params, h⟩
    refine ⟨⟨_, params, h⟩, ?_⟩
    have hmt := ParseMediaType_mediatype v _ params h
    have : ("application/json" : String).data
        = mime.trimSpace (mime.toLower (mime.cutBase v.toList)) := by
      rw [hmt]
    exact this.symm
  · rintro ⟨⟨mt, params, h⟩, hbase⟩
    have hmt := ParseMediaType_mediatype v mt params h
    rw [hbase] at hmt
    refine ⟨?_, params, ?_⟩
    · intro hv
      rw [hv] at hbase
      exact absurd hbase (by decide)
    · rw [h, hmt]
      rfl

end CaddyExec
